import Mathlib

/-!
Verification of the Product Image Compositor of the n8n-nodes-naper
repository (src/image/ImageCompose.node.ts), against its natural-language
specification.

The development shallowly embeds the pure computational core of the node:
the white-region detector (raw pixel scan, candidate rectangles), the
candidate selection by vertical alignment preference, the placement
planner (proportional scale, rounding, alignment offsets), the rotation
optimizer of the fill-entire-background mode, the per-item output
construction, and the per-batch item loop.

The sharp image library is the out-of-scope Raster Image Adapter: its
buffers are an abstract type, and its metadata / rotate operations are
function parameters of the embedded pipeline.  Number semantics:
JavaScript numbers on the relevant inputs are integers and exact
rationals, so the embedding uses Int and Rat; Math.round x is
Int.floor (x + 1/2), Math.floor of a rational quotient of integers with
positive divisor is Int.fdiv.
-/

/-- A decoded raw image as the detector reads it: dimensions plus a pixel
accessor returning the (r, g, b) channel values of the pixel at row y,
column x.  Models the raw buffer obtained by
sharp(bgBuf).ensureAlpha().raw() in ImageCompose.node.ts lines 282 to 285
(idx = (y * bgW + x) * channels; channels r, g, b read at idx, idx+1,
idx+2). -/
structure RawImage where
  width : Nat
  height : Nat
  pixel : Nat → Nat → Nat × Nat × Nat

/-- Pixel classification of the region detector, line 294: a pixel is
background when r > 240 and g > 240 and b > 240 (WHITE = 240), else it is
foreground. -/
def isBgPixel (pix : Nat × Nat × Nat) : Bool :=
  decide (240 < pix.1) && decide (240 < pix.2.1) && decide (240 < pix.2.2)

/-- One iteration of the inner pixel loop, lines 289 to 298: on a
foreground pixel at row y the running (minY, maxY) pair is updated with
if (y < minY) minY = y and if (y > maxY) maxY = y. -/
def scanStep (img : RawImage) (y : Nat) (st : Int × Int) (x : Nat) : Int × Int :=
  if !isBgPixel (img.pixel y x) then
    ((if (y : Int) < st.1 then (y : Int) else st.1),
     (if st.2 < (y : Int) then (y : Int) else st.2))
  else st

/-- The inner loop over columns x = 0 .. width - 1 of row y. -/
def scanRow (img : RawImage) (st : Int × Int) (y : Nat) : Int × Int :=
  (List.range img.width).foldl (scanStep img y) st

/-- The full double scan loop of lines 286 to 299, started from
minY = bgH and maxY = -1. -/
def scanImg (img : RawImage) : Int × Int :=
  (List.range img.height).foldl (scanRow img) ((img.height : Int), -1)

/-- Lines 300 to 303: when no foreground pixel was found (maxY still -1),
minY is reset to 0 and maxY stays -1. -/
def detectBand (img : RawImage) : Int × Int :=
  let s := scanImg img
  if s.2 = -1 then (0, -1) else s

/-- Row y contains at least one foreground pixel (specification-side
reading of the same classification the scan uses). -/
def fgRowB (img : RawImage) (y : Nat) : Bool :=
  (List.range img.width).any (fun x => !isBgPixel (img.pixel y x))

/-- A placement rectangle in background pixel coordinates, the Rect type
of line 240 ({x, y, w, h}). -/
structure Rect where
  x : Int
  y : Int
  w : Int
  h : Int
  deriving DecidableEq

/-- Candidate rectangle construction of lines 305 to 315: a top rectangle
when minY > 0, a bottom rectangle when maxY < bgH - 1, and the
whole-canvas fallback when neither was pushed. -/
def candidates (img : RawImage) : List Rect :=
  let mn := (detectBand img).1
  let mx := (detectBand img).2
  let rects : List Rect :=
    (if 0 < mn then [{ x := 0, y := 0, w := (img.width : Int), h := mn }] else []) ++
    (if mx < (img.height : Int) - 1 then
      [{ x := 0, y := mx + 1, w := (img.width : Int), h := (img.height : Int) - mx - 1 }]
     else [])
  if rects = [] then
    [{ x := 0, y := 0, w := (img.width : Int), h := (img.height : Int) }]
  else rects

/-- Area of a rectangle, the sort key b.w * b.h - a.w * a.h of line 320. -/
def area (r : Rect) : Int := r.w * r.h

/-- Stable insertion of a rectangle into a list sorted by decreasing
area: r goes before the first strictly smaller element, after equal
ones. -/
def insertByArea (r : Rect) : List Rect → List Rect
  | [] => [r]
  | s :: rest => if area s ≤ area r then r :: s :: rest else s :: insertByArea r rest

/-- Stable sort by decreasing area, modelling
rects.sort((a, b) => b.w * b.h - a.w * a.h) of line 320 (the ECMAScript
sort is stable, so equal areas keep list order). -/
def sortByAreaDesc : List Rect → List Rect
  | [] => []
  | r :: rest => insertByArea r (sortByAreaDesc rest)

/-- Candidate selection by vertical preference, lines 317 to 320:
top takes the first rectangle with y == 0, bottom the first with y != 0
(both via Array.find, which yields undefined = none when absent), any
other value takes the head of the stable descending sort by area. -/
def selectRect (vPref : String) (rects : List Rect) : Option Rect :=
  if vPref = "top" then rects.find? (fun r => r.y == 0)
  else if vPref = "bottom" then rects.find? (fun r => r.y != 0)
  else (sortByAreaDesc rects).head?

/-- Specification-side selector: the candidate of largest area, with ties
broken by list order (the first listed candidate wins).  Written from the
words of the specification, to be compared with the sort-based selection
of the source. -/
def firstLargest : List Rect → Option Rect
  | [] => none
  | r :: rest => some (rest.foldl (fun b s => if area b < area s then s else b) r)

/-- JavaScript Math.round on an exact rational: floor (x + 1/2). -/
def mathRound (q : ℚ) : Int := ⌊q + 1 / 2⌋

/-- The uniform scale factor of lines 169 to 172 and line 343:
min (availW / w, availH / h) as an exact rational. -/
def uniformScale (availW availH prodW prodH : Int) : ℚ :=
  min ((availW : ℚ) / (prodW : ℚ)) ((availH : ℚ) / (prodH : ℚ))

/-- The scaled dimensions of lines 173 to 174 and lines 344 to 345:
(Math.round (w * scale), Math.round (h * scale)). -/
def scaledDims (availW availH prodW prodH : Int) : Int × Int :=
  (mathRound ((prodW : ℚ) * uniformScale availW availH prodW prodH),
   mathRound ((prodH : ℚ) * uniformScale availW availH prodW prodH))

/-- The tilt angle of lines 324 to 327: the manual parameter when it is
nonzero, else -90 when the aspect ratio height / width exceeds 1.8, else
0. -/
def computeTiltAngle (tiltParam prodW prodH : Int) : Int :=
  if tiltParam ≠ 0 then tiltParam
  else if (1.8 : ℚ) < (prodH : ℚ) / (prodW : ℚ) then -90 else 0

/-- The rotation actually applied to the product buffer before measuring,
lines 328 to 335: some angle when the computed tilt is nonzero, none when
the buffer is used unrotated. -/
def appliedRotation (tiltParam prodW prodH : Int) : Option Int :=
  let t := computeTiltAngle tiltParam prodW prodH
  if t ≠ 0 then some t else none

/-- The two distinct failure modes of the detect-white execution path:
the explicit throw of line 342 (insufficient area), and the TypeError a
property access on the undefined result of a failed Array.find produces
(lines 317 to 320 followed by line 339). -/
inductive RunError where
  | insufficientArea
  | undefinedRect
  deriving DecidableEq

/-- The final geometry of a successfully planned item: scaled dimensions
and the top-left offset handed to composite. -/
structure PlacedProduct where
  newW : Int
  newH : Int
  posX : Int
  posY : Int
  deriving DecidableEq

/-- The detect-white execution path for one item, lines 281 to 365, up to
the geometry handed to the compositor.  Buffers are the abstract type β;
md gives sharp metadata (width, height) of a buffer and rt is
sharp rotate.  The selection result of line 317 to 320 is matched: the
undefined case crashes at the first property access (line 339), modelled
as the undefinedRect error.  The explicit throw of line 342 is the
insufficientArea error. -/
def processDetect {β : Type} (md : β → Int × Int) (rt : β → Int → β)
    (padding : Int) (hAlign vPref : String) (tiltParam : Int)
    (bg : RawImage) (prodBufOrig : β) : Except RunError PlacedProduct :=
  match selectRect vPref (candidates bg) with
  | none => .error .undefinedRect
  | some whiteRect =>
    let prodMeta := md prodBufOrig
    let tiltAngle := computeTiltAngle tiltParam prodMeta.1 prodMeta.2
    let prodBuf := if tiltAngle ≠ 0 then rt prodBufOrig tiltAngle else prodBufOrig
    let prodRotMeta := md prodBuf
    let availW := whiteRect.w - 2 * padding
    let availH := whiteRect.h - 2 * padding
    if availW ≤ 0 ∨ availH ≤ 0 then .error .insufficientArea
    else
      let nd := scaledDims availW availH prodRotMeta.1 prodRotMeta.2
      let px :=
        if hAlign = "center" then whiteRect.x + Int.fdiv (whiteRect.w - nd.1) 2
        else if hAlign = "end" then whiteRect.x + whiteRect.w - nd.1 - padding
        else whiteRect.x + padding
      let py :=
        if vPref = "center" then whiteRect.y + Int.fdiv (whiteRect.h - nd.2) 2
        else if vPref = "bottom" then whiteRect.y + whiteRect.h - nd.2 - padding
        else whiteRect.y + padding
      .ok ⟨nd.1, nd.2, px, py⟩

/-- The item loop of lines 194 to 379: items are processed in order and
there is no try/catch, so the first exception aborts the whole loop and
is the result of the execution. -/
def runBatch {α ε γ : Type} (f : α → Except ε γ) : List α → Except ε (List γ)
  | [] => .ok []
  | x :: t =>
    match f x with
    | .error e => .error e
    | .ok o =>
      match runBatch f t with
      | .error e => .error e
      | .ok os => .ok (o :: os)

/-- An execution item as the output construction sees it: the json
payload (abstract type J) and the binary map from property names to
binary entries (abstract type B). -/
structure WorkItem (J B : Type) where
  json : J
  binary : String → Option B

/-- The output construction of lines 268 to 278 and 367 to 377 (both
modes build the pushed item identically): json is the input json
unchanged, binary is the spread of the input binary map with the composed
entry under the configured output property. -/
def attachOutput {J B : Type} (item : WorkItem J B) (outProp : String) (composed : B) :
    WorkItem J B :=
  { json := item.json,
    binary := fun k => if k = outProp then some composed else item.binary k }

/-- The result record of findBestFitRotation, lines 130 to 142: chosen
angle, scaled dimensions and the rotated-and-trimmed buffer.  The code
initialises it to the empty object and returns it possibly still empty;
the embedding carries Option (FitResult β), none being the
all-fields-undefined record. -/
structure FitResult (β : Type) where
  angle : Int
  width : Int
  height : Int
  buf : β
  deriving DecidableEq

/-- Lines 146 to 159: the buffer examined for an angle is the rotated and
trimmed product for a nonzero angle and the untrimmed original buffer for
angle 0. -/
def rotatedBuf {β : Type} (rt : β → Int → β) (orig : β) (a : Int) : β :=
  if a ≠ 0 then rt orig a else orig

/-- The scaled dimensions the optimizer computes for one angle, lines 161
to 174: metadata of the rotated buffer, available space, uniform scale,
rounded width and height. -/
def scaledAt {β : Type} (md : β → Int × Int) (rt : β → Int → β) (orig : β)
    (bgW bgH padding : Int) (a : Int) : Int × Int :=
  scaledDims (bgW - 2 * padding) (bgH - 2 * padding)
    (md (rotatedBuf rt orig a)).1 (md (rotatedBuf rt orig a)).2

/-- The scaled footprint area w * h the optimizer maximises, line 177. -/
def areaAt {β : Type} (md : β → Int × Int) (rt : β → Int → β) (orig : β)
    (bgW bgH padding : Int) (a : Int) : Int :=
  (scaledAt md rt orig bgW bgH padding a).1 * (scaledAt md rt orig bgW bgH padding a).2

/-- The record stored when an angle becomes the best one, line 179. -/
def fitAt {β : Type} (md : β → Int × Int) (rt : β → Int → β) (orig : β)
    (bgW bgH padding : Int) (a : Int) : FitResult β :=
  ⟨a, (scaledAt md rt orig bgW bgH padding a).1,
      (scaledAt md rt orig bgW bgH padding a).2,
      rotatedBuf rt orig a⟩

/-- bestArea of line 136: 0 initially, else the area of the stored best
record (the code keeps the two in lockstep). -/
def bestArea {β : Type} : Option (FitResult β) → Int
  | none => 0
  | some f => f.width * f.height

/-- One iteration of the angle loop, lines 144 to 181: skip the angle
when the padded background has no space (continue of line 166), else
replace the best record when the scaled area strictly exceeds the best
area so far. -/
def bestStep {β : Type} (md : β → Int × Int) (rt : β → Int → β) (orig : β)
    (bgW bgH padding : Int) (st : Option (FitResult β)) (a : Int) :
    Option (FitResult β) :=
  if bgW - 2 * padding ≤ 0 ∨ bgH - 2 * padding ≤ 0 then st
  else if bestArea st < areaAt md rt orig bgW bgH padding a then
    some (fitAt md rt orig bgW bgH padding a)
  else st

/-- The angle grid of line 144: for (angle = -90; angle <= 90;
angle += 5), that is -90, -85, ..., 85, 90. -/
def angleList : List Int := (List.range 37).map (fun (k : Nat) => -90 + 5 * (k : Int))

/-- findBestFitRotation of lines 125 to 189: fold the angle loop over the
grid starting from the empty best record. -/
def findBestFitRotation {β : Type} (md : β → Int × Int) (rt : β → Int → β)
    (orig : β) (bgW bgH padding : Int) : Option (FitResult β) :=
  angleList.foldl (bestStep md rt orig bgW bgH padding) none

/-- The fill-entire-background path of lines 243 to 266 up to the
geometry handed to the compositor: the whole canvas is the target
rectangle and the best-fit record drives resize and centred offsets.
When findBestFitRotation returned the empty record, the code carries the
undefined width, height and buffer into resize without raising any
structured error; the embedding returns ok none for that case. -/
def processFill {β : Type} (md : β → Int × Int) (rt : β → Int → β) (orig : β)
    (bgW bgH padding : Int) : Except RunError (Option (Int × Int × Int × Int)) :=
  let whiteRect : Rect := ⟨0, 0, bgW, bgH⟩
  match findBestFitRotation md rt orig bgW bgH padding with
  | none => .ok none
  | some best =>
    .ok (some (best.width, best.height,
      whiteRect.x + Int.fdiv (whiteRect.w - best.width) 2,
      whiteRect.y + Int.fdiv (whiteRect.h - best.height) 2))

/-- Concrete 2 by 3 background whose only foreground row is row 1. -/
def imgBand : RawImage :=
  ⟨2, 3, fun y _ => if y = 1 then (0, 0, 0) else (255, 255, 255)⟩

/-- Concrete 2 by 3 background whose only foreground row is row 0. -/
def imgRow0 : RawImage :=
  ⟨2, 3, fun y _ => if y = 0 then (0, 0, 0) else (255, 255, 255)⟩

/-- Concrete 2 by 2 all-white background: every channel of every pixel is
255, above the 240 threshold. -/
def imgWhite : RawImage :=
  ⟨2, 2, fun _ _ => (255, 255, 255)⟩

/-- Concrete work item used to instantiate the output-construction
theorem. -/
def itemW : WorkItem Nat Nat := ⟨3, fun _ => none⟩

/- ------------------------------------------------------------------ -/
/- Helper lemmas                                                       -/
/- ------------------------------------------------------------------ -/

theorem mathRound_le_of_le {q : ℚ} {n : Int} (h : q ≤ (n : ℚ)) : mathRound q ≤ n := by
  have h2 : q + 1 / 2 ≤ (n : ℚ) + 1 / 2 := by linarith
  have h3 : ⌊q + 1 / 2⌋ ≤ ⌊(n : ℚ) + 1 / 2⌋ := Int.floor_le_floor h2
  have h4 : ⌊(n : ℚ) + 1 / 2⌋ = n := by
    rw [add_comm, Int.floor_add_int]
    norm_num [Int.floor_eq_iff]
  calc mathRound q = ⌊q + 1 / 2⌋ := rfl
    _ ≤ ⌊(n : ℚ) + 1 / 2⌋ := h3
    _ = n := h4

theorem abs_mathRound_sub_le (q : ℚ) : |(mathRound q : ℚ) - q| ≤ 1 / 2 := by
  have h1 : ((⌊q + 1 / 2⌋ : Int) : ℚ) ≤ q + 1 / 2 := Int.floor_le _
  have h2 : q + 1 / 2 < ((⌊q + 1 / 2⌋ : Int) : ℚ) + 1 := Int.lt_floor_add_one _
  have he : (mathRound q : ℚ) = ((⌊q + 1 / 2⌋ : Int) : ℚ) := rfl
  rw [abs_le, he]
  constructor <;> linarith

/- ------------------------------------------------------------------ -/
/- C4: Placement Planner scaled dimensions                             -/
/- ------------------------------------------------------------------ -/

/-- Claim C4, amended: for every rect R, product dimensions (w, h) and
padding p with positive available space R.width - 2p and R.height - 2p
and positive product dimensions, the scaled dimensions fit inside the
available space, and each scaled dimension is within one half pixel of
the exact rational value scale * dimension (aspect ratio preserved up to
integer rounding).  The original 2 percent relative aspect bound fails,
see the counterexample. -/
theorem c4_scaled_dims_fit (r : Rect) (prodW prodH padding : Int)
    (hW : 0 < r.w - 2 * padding) (hH : 0 < r.h - 2 * padding)
    (hpw : 0 < prodW) (hph : 0 < prodH) :
    (scaledDims (r.w - 2 * padding) (r.h - 2 * padding) prodW prodH).1 ≤ r.w - 2 * padding ∧
    (scaledDims (r.w - 2 * padding) (r.h - 2 * padding) prodW prodH).2 ≤ r.h - 2 * padding ∧
    |((scaledDims (r.w - 2 * padding) (r.h - 2 * padding) prodW prodH).1 : ℚ) -
      (prodW : ℚ) * uniformScale (r.w - 2 * padding) (r.h - 2 * padding) prodW prodH| ≤ 1 / 2 ∧
    |((scaledDims (r.w - 2 * padding) (r.h - 2 * padding) prodW prodH).2 : ℚ) -
      (prodH : ℚ) * uniformScale (r.w - 2 * padding) (r.h - 2 * padding) prodW prodH| ≤ 1 / 2 := by
  have hpwq : (0 : ℚ) < (prodW : ℚ) := by exact_mod_cast hpw
  have hphq : (0 : ℚ) < (prodH : ℚ) := by exact_mod_cast hph
  set A : Int := r.w - 2 * padding with hA
  set B : Int := r.h - 2 * padding with hB
  have hsW : (prodW : ℚ) * uniformScale A B prodW prodH ≤ (A : ℚ) := by
    have h1 : uniformScale A B prodW prodH ≤ (A : ℚ) / (prodW : ℚ) := min_le_left _ _
    have h2 : (prodW : ℚ) * uniformScale A B prodW prodH ≤ (prodW : ℚ) * ((A : ℚ) / (prodW : ℚ)) :=
      mul_le_mul_of_nonneg_left h1 (le_of_lt hpwq)
    have h3 : (prodW : ℚ) * ((A : ℚ) / (prodW : ℚ)) = (A : ℚ) := by
      field_simp
    linarith
  have hsH : (prodH : ℚ) * uniformScale A B prodW prodH ≤ (B : ℚ) := by
    have h1 : uniformScale A B prodW prodH ≤ (B : ℚ) / (prodH : ℚ) := min_le_right _ _
    have h2 : (prodH : ℚ) * uniformScale A B prodW prodH ≤ (prodH : ℚ) * ((B : ℚ) / (prodH : ℚ)) :=
      mul_le_mul_of_nonneg_left h1 (le_of_lt hphq)
    have h3 : (prodH : ℚ) * ((B : ℚ) / (prodH : ℚ)) = (B : ℚ) := by
      field_simp
    linarith
  refine ⟨mathRound_le_of_le hsW, mathRound_le_of_le hsH, ?_, ?_⟩
  · exact abs_mathRound_sub_le _
  · exact abs_mathRound_sub_le _

/-- Claim C4, counterexample to the claim as stated: rect 12 wide and 9
high, padding 1, product 3 by 2.  The available space is 10 by 7, the
scale is 10/3, the scaled dimensions are (10, 7), and the relative aspect
error |(10/7) / (3/2) - 1| = 1/21 is about 4.8 percent, not below 2
percent. -/
theorem c4_counterexample :
    (0 : Int) < 12 - 2 * 1 ∧ (0 : Int) < 9 - 2 * 1 ∧
    scaledDims (12 - 2 * 1) (9 - 2 * 1) 3 2 = (10, 7) ∧
    ¬ (|(10 : ℚ) / 7 - 3 / 2| / (3 / 2) < 2 / 100) := by
  refine ⟨by norm_num, by norm_num, ?_, ?_⟩
  · norm_num [scaledDims, uniformScale, mathRound, min_def, Prod.ext_iff]
  · have h1 : |(10 : ℚ) / 7 - 3 / 2| = 1 / 14 := by
      rw [abs_sub_comm, abs_of_nonneg (by norm_num : (0 : ℚ) ≤ 3 / 2 - 10 / 7)]
      norm_num
    rw [h1]
    norm_num

/-- Witness for C4 at rect 40 by 30, padding 5, product 4 by 3. -/
theorem c4_witness :
    (scaledDims (40 - 2 * 5) (30 - 2 * 5) 4 3).1 ≤ 40 - 2 * 5 ∧
    (scaledDims (40 - 2 * 5) (30 - 2 * 5) 4 3).2 ≤ 30 - 2 * 5 ∧
    |((scaledDims (40 - 2 * 5) (30 - 2 * 5) 4 3).1 : ℚ) -
      ((4 : Int) : ℚ) * uniformScale (40 - 2 * 5) (30 - 2 * 5) 4 3| ≤ 1 / 2 ∧
    |((scaledDims (40 - 2 * 5) (30 - 2 * 5) 4 3).2 : ℚ) -
      ((3 : Int) : ℚ) * uniformScale (40 - 2 * 5) (30 - 2 * 5) 4 3| ≤ 1 / 2 :=
  c4_scaled_dims_fit ⟨0, 0, 40, 30⟩ 4 3 5 (by norm_num) (by norm_num) (by norm_num) (by norm_num)

/- ------------------------------------------------------------------ -/
/- C8: auto rotation rule                                              -/
/- ------------------------------------------------------------------ -/

/-- Claim C8: with a positive product width, a -90 degree rotation is
applied before measuring exactly when the manual override is 0 and the
height over width ratio exceeds 1.8; with a nonzero override exactly the
override angle is applied. -/
theorem c8_auto_rotation (ov w h : Int) (hw : 0 < w) :
    (ov = 0 → (appliedRotation ov w h = some (-90) ↔ (1.8 : ℚ) < (h : ℚ) / (w : ℚ))) ∧
    (ov = 0 → ¬ ((1.8 : ℚ) < (h : ℚ) / (w : ℚ)) → appliedRotation ov w h = none) ∧
    (ov ≠ 0 → appliedRotation ov w h = some ov) := by
  refine ⟨?_, ?_, ?_⟩
  · rintro rfl
    by_cases ha : (1.8 : ℚ) < (h : ℚ) / (w : ℚ)
    · simp [appliedRotation, computeTiltAngle, ha]
    · simp [appliedRotation, computeTiltAngle, ha]
  · rintro rfl ha
    simp [appliedRotation, computeTiltAngle, ha]
  · intro hov
    simp [appliedRotation, computeTiltAngle, hov]

/-- Witness for C8 at override 0, product 1 wide and 2 high (ratio 2,
above 1.8, so the automatic -90 rotation applies). -/
theorem c8_witness :
    ((0 : Int) = 0 → (appliedRotation 0 1 2 = some (-90) ↔
      (1.8 : ℚ) < ((2 : Int) : ℚ) / ((1 : Int) : ℚ))) ∧
    ((0 : Int) = 0 → ¬ ((1.8 : ℚ) < ((2 : Int) : ℚ) / ((1 : Int) : ℚ)) →
      appliedRotation 0 1 2 = none) ∧
    ((0 : Int) ≠ 0 → appliedRotation 0 1 2 = some 0) :=
  c8_auto_rotation 0 1 2 (by norm_num)

/- ------------------------------------------------------------------ -/
/- C9: output item construction                                        -/
/- ------------------------------------------------------------------ -/

/-- Claim C9: for every successfully processed item the output item
carries the input json unchanged, the binary map of the output holds the
composed image under the configured output key and agrees with the input
binary map on every other key; the input item is a value never mutated
(the embedding is a pure function of the input item, which stays
available unchanged). -/
theorem c9_output_item (J B : Type) (item : WorkItem J B) (p : String) (c : B) :
    (attachOutput item p c).json = item.json ∧
    (attachOutput item p c).binary p = some c ∧
    ∀ k, k ≠ p → (attachOutput item p c).binary k = item.binary k := by
  refine ⟨rfl, ?_, ?_⟩
  · simp [attachOutput]
  · intro k hk
    simp [attachOutput, hk]

/-- Witness for C9 on a concrete item, output key and composed value. -/
theorem c9_witness :
    (attachOutput itemW "composed" 7).json = itemW.json ∧
    (attachOutput itemW "composed" 7).binary "composed" = some 7 ∧
    (attachOutput itemW "composed" 7).binary "bg" = itemW.binary "bg" :=
  ⟨(c9_output_item Nat Nat itemW "composed" 7).1,
   (c9_output_item Nat Nat itemW "composed" 7).2.1,
   (c9_output_item Nat Nat itemW "composed" 7).2.2 "bg" (by decide)⟩

/- ------------------------------------------------------------------ -/
/- C10: rotation optimizer with no available space                     -/
/- ------------------------------------------------------------------ -/

theorem foldl_bestStep_skip {β : Type} (md : β → Int × Int) (rt : β → Int → β) (orig : β)
    (bgW bgH padding : Int) (h : bgW - 2 * padding ≤ 0 ∨ bgH - 2 * padding ≤ 0) :
    ∀ (l : List Int) (st : Option (FitResult β)),
      l.foldl (bestStep md rt orig bgW bgH padding) st = st := by
  intro l
  induction l with
  | nil => intro st; rfl
  | cons a t ih =>
    intro st
    have hstep : bestStep md rt orig bgW bgH padding st a = st := by
      unfold bestStep
      rw [if_pos h]
    rw [List.foldl_cons, hstep, ih]

/-- Claim C10: in fill-entire-background mode, when the padded background
has non-positive available width or height, every angle of the loop is
skipped, findBestFitRotation returns the record with all fields undefined
(none), no structured error of any kind is raised, and the fill path
proceeds with those undefined values (ok none). -/
theorem c10_no_space_returns_empty {β : Type} (md : β → Int × Int) (rt : β → Int → β)
    (orig : β) (bgW bgH padding : Int)
    (h : bgW - 2 * padding ≤ 0 ∨ bgH - 2 * padding ≤ 0) :
    findBestFitRotation md rt orig bgW bgH padding = none ∧
    processFill md rt orig bgW bgH padding = .ok none := by
  have h1 : findBestFitRotation md rt orig bgW bgH padding = none :=
    foldl_bestStep_skip md rt orig bgW bgH padding h angleList none
  refine ⟨h1, ?_⟩
  simp [processFill, h1]

/-- Witness for C10 at a 5 by 5 background with padding 10. -/
theorem c10_witness :
    findBestFitRotation (fun _ : Unit => ((1 : Int), (1 : Int))) (fun b _ => b) () 5 5 10 = none ∧
    processFill (fun _ : Unit => ((1 : Int), (1 : Int))) (fun b _ => b) () 5 5 10 = .ok none :=
  c10_no_space_returns_empty _ _ _ 5 5 10 (Or.inl (by norm_num))

/- ------------------------------------------------------------------ -/
/- Region detector: scan characterization                              -/
/- ------------------------------------------------------------------ -/

theorem foldl_scanStep (img : RawImage) (y : Nat) :
    ∀ (l : List Nat) (st : Int × Int),
      l.foldl (scanStep img y) st =
        if l.any (fun x => !isBgPixel (img.pixel y x))
        then (min st.1 (y : Int), max st.2 (y : Int)) else st := by
  intro l
  induction l with
  | nil => intro st; simp
  | cons x t ih =>
    intro st
    rw [List.foldl_cons, ih]
    by_cases hx : isBgPixel (img.pixel y x) = true
    · have hstep : scanStep img y st x = st := by
        simp [scanStep, hx]
      rw [hstep, List.any_cons]
      simp [hx]
    · rw [Bool.not_eq_true] at hx
      have hstep : scanStep img y st x = (min st.1 (y : Int), max st.2 (y : Int)) := by
        simp only [scanStep, hx, Bool.not_false, if_true]
        rw [Prod.ext_iff]
        refine ⟨?_, ?_⟩ <;> simp <;> split <;> omega
      rw [hstep, List.any_cons]
      have hmm : min (min st.1 (y : Int)) (y : Int) = min st.1 (y : Int) := by
        rw [min_assoc, min_self]
      have hMM : max (max st.2 (y : Int)) (y : Int) = max st.2 (y : Int) := by
        rw [max_assoc, max_self]
      by_cases ht : t.any (fun x => !isBgPixel (img.pixel y x)) = true <;>
        simp [ht, hx, hmm, hMM]

theorem foldl_scanRow (img : RawImage) :
    ∀ (l : List Nat) (st : Int × Int),
      l.foldl (scanRow img) st =
        ((l.filter (fgRowB img)).foldl (fun (a : Int) (y : Nat) => min a (y : Int)) st.1,
         (l.filter (fgRowB img)).foldl (fun (a : Int) (y : Nat) => max a (y : Int)) st.2) := by
  intro l
  induction l with
  | nil => intro st; simp
  | cons y t ih =>
    intro st
    rw [List.foldl_cons]
    have hrow : scanRow img st y =
        if fgRowB img y then (min st.1 (y : Int), max st.2 (y : Int)) else st := by
      unfold scanRow fgRowB
      exact foldl_scanStep img y (List.range img.width) st
    by_cases hf : fgRowB img y = true
    · rw [hrow, if_pos hf, ih, List.filter_cons_of_pos hf]
      simp [List.foldl_cons]
    · rw [hrow, if_neg (by simp [hf]), ih, List.filter_cons_of_neg (by simp [hf])]

theorem foldl_min_le_init (l : List Nat) :
    ∀ a : Int, l.foldl (fun (b : Int) (y : Nat) => min b (y : Int)) a ≤ a := by
  induction l with
  | nil => intro a; simp
  | cons y t ih =>
    intro a
    rw [List.foldl_cons]
    calc t.foldl (fun (b : Int) (y : Nat) => min b (y : Int)) (min a (y : Int)) ≤
        min a (y : Int) := ih _
      _ ≤ a := min_le_left _ _

theorem foldl_min_le_mem (l : List Nat) :
    ∀ (a : Int) (z : Nat), z ∈ l →
      l.foldl (fun (b : Int) (y : Nat) => min b (y : Int)) a ≤ (z : Int) := by
  induction l with
  | nil => intro a z hz; exact absurd hz (List.not_mem_nil z)
  | cons y t ih =>
    intro a z hz
    rw [List.foldl_cons]
    rcases List.mem_cons.mp hz with rfl | hz
    · calc t.foldl (fun (b : Int) (y : Nat) => min b (y : Int)) (min a (z : Int)) ≤
          min a (z : Int) := foldl_min_le_init t _
        _ ≤ (z : Int) := min_le_right _ _
    · exact ih _ z hz

theorem foldl_min_eq_init_or_mem (l : List Nat) :
    ∀ a : Int, l.foldl (fun (b : Int) (y : Nat) => min b (y : Int)) a = a ∨
      ∃ z ∈ l, l.foldl (fun (b : Int) (y : Nat) => min b (y : Int)) a = (z : Int) := by
  induction l with
  | nil => intro a; left; rfl
  | cons y t ih =>
    intro a
    rw [List.foldl_cons]
    rcases ih (min a (y : Int)) with h | ⟨z, hz, h⟩
    · rcases le_total a (y : Int) with hay | hay
      · left; rw [h, min_eq_left hay]
      · right; exact ⟨y, List.mem_cons_self y t, by rw [h, min_eq_right hay]⟩
    · right; exact ⟨z, List.mem_cons_of_mem y hz, h⟩

theorem foldl_max_ge_init (l : List Nat) :
    ∀ a : Int, a ≤ l.foldl (fun (b : Int) (y : Nat) => max b (y : Int)) a := by
  induction l with
  | nil => intro a; simp
  | cons y t ih =>
    intro a
    rw [List.foldl_cons]
    calc a ≤ max a (y : Int) := le_max_left _ _
      _ ≤ t.foldl (fun (b : Int) (y : Nat) => max b (y : Int)) (max a (y : Int)) := ih _

theorem foldl_max_ge_mem (l : List Nat) :
    ∀ (a : Int) (z : Nat), z ∈ l →
      (z : Int) ≤ l.foldl (fun (b : Int) (y : Nat) => max b (y : Int)) a := by
  induction l with
  | nil => intro a z hz; exact absurd hz (List.not_mem_nil z)
  | cons y t ih =>
    intro a z hz
    rw [List.foldl_cons]
    rcases List.mem_cons.mp hz with rfl | hz
    · calc (z : Int) ≤ max a (z : Int) := le_max_right _ _
        _ ≤ t.foldl (fun (b : Int) (y : Nat) => max b (y : Int)) (max a (z : Int)) :=
          foldl_max_ge_init t _
    · exact ih _ z hz

theorem foldl_max_eq_init_or_mem (l : List Nat) :
    ∀ a : Int, l.foldl (fun (b : Int) (y : Nat) => max b (y : Int)) a = a ∨
      ∃ z ∈ l, l.foldl (fun (b : Int) (y : Nat) => max b (y : Int)) a = (z : Int) := by
  induction l with
  | nil => intro a; left; rfl
  | cons y t ih =>
    intro a
    rw [List.foldl_cons]
    rcases ih (max a (y : Int)) with h | ⟨z, hz, h⟩
    · rcases le_total a (y : Int) with hay | hay
      · right; exact ⟨y, List.mem_cons_self y t, by rw [h, max_eq_right hay]⟩
      · left; rw [h, max_eq_left hay]
    · right; exact ⟨z, List.mem_cons_of_mem y hz, h⟩

theorem scanImg_eq (img : RawImage) :
    scanImg img =
      (((List.range img.height).filter (fgRowB img)).foldl
          (fun (a : Int) (y : Nat) => min a (y : Int)) (img.height : Int),
       ((List.range img.height).filter (fgRowB img)).foldl
          (fun (a : Int) (y : Nat) => max a (y : Int)) (-1)) := by
  unfold scanImg
  exact foldl_scanRow img (List.range img.height) _

theorem detectBand_of_fg (img : RawImage) (m M : Nat)
    (hm : fgRowB img m = true) (hmh : m < img.height)
    (hmin : ∀ y, y < img.height → fgRowB img y = true → m ≤ y)
    (hM : fgRowB img M = true) (hMh : M < img.height)
    (hmax : ∀ y, y < img.height → fgRowB img y = true → y ≤ M) :
    detectBand img = ((m : Int), (M : Int)) := by
  have hmF : m ∈ (List.range img.height).filter (fgRowB img) :=
    List.mem_filter.mpr ⟨List.mem_range.mpr hmh, hm⟩
  have hMF : M ∈ (List.range img.height).filter (fgRowB img) :=
    List.mem_filter.mpr ⟨List.mem_range.mpr hMh, hM⟩
  have h1 : ((List.range img.height).filter (fgRowB img)).foldl
      (fun (a : Int) (y : Nat) => min a (y : Int)) (img.height : Int) = (m : Int) := by
    have hle := foldl_min_le_mem ((List.range img.height).filter (fgRowB img))
      (img.height : Int) m hmF
    rcases foldl_min_eq_init_or_mem ((List.range img.height).filter (fgRowB img))
      (img.height : Int) with h | ⟨z, hz, h⟩
    · rw [h] at hle
      have hcast : (m : Int) < (img.height : Int) := by exact_mod_cast hmh
      omega
    · obtain ⟨hzr, hzfg⟩ := List.mem_filter.mp hz
      have hzh := List.mem_range.mp hzr
      have hmz : m ≤ z := hmin z hzh hzfg
      have hmzc : (m : Int) ≤ (z : Int) := by exact_mod_cast hmz
      rw [h] at hle ⊢
      omega
  have h2 : ((List.range img.height).filter (fgRowB img)).foldl
      (fun (a : Int) (y : Nat) => max a (y : Int)) (-1) = (M : Int) := by
    have hge := foldl_max_ge_mem ((List.range img.height).filter (fgRowB img))
      (-1) M hMF
    rcases foldl_max_eq_init_or_mem ((List.range img.height).filter (fgRowB img))
      (-1) with h | ⟨z, hz, h⟩
    · rw [h] at hge
      have : (0 : Int) ≤ (M : Int) := Int.ofNat_nonneg M
      omega
    · obtain ⟨hzr, hzfg⟩ := List.mem_filter.mp hz
      have hzh := List.mem_range.mp hzr
      have hzM : z ≤ M := hmax z hzh hzfg
      have hzMc : (z : Int) ≤ (M : Int) := by exact_mod_cast hzM
      rw [h] at hge ⊢
      omega
  have hscan : scanImg img = ((m : Int), (M : Int)) := by
    rw [scanImg_eq, h1, h2]
  unfold detectBand
  rw [hscan]
  have hM0 : ((M : Int)) ≠ -1 := by
    have : (0 : Int) ≤ (M : Int) := Int.ofNat_nonneg M
    omega
  simp [hM0]

theorem detectBand_all_white (img : RawImage)
    (hall : ∀ y, y < img.height → fgRowB img y = false) :
    detectBand img = (0, -1) := by
  have hF : (List.range img.height).filter (fgRowB img) = [] := by
    rw [List.filter_eq_nil_iff]
    intro y hy
    rw [hall y (List.mem_range.mp hy)]
    simp
  have hscan : scanImg img = ((img.height : Int), -1) := by
    rw [scanImg_eq, hF]
    rfl
  unfold detectBand
  rw [hscan]
  simp

/- ------------------------------------------------------------------ -/
/- C2: Region detector candidates                                      -/
/- ------------------------------------------------------------------ -/

/-- Claim C2: for a background image with at least one foreground pixel
(some row fails the all-channels-above-240 test), with m the smallest and
M the largest foreground row index, the scan computes exactly (m, M) and
the candidate list is exactly: the top rectangle of rows [0, m) at full
width when 0 < m, then the bottom rectangle of rows (M, height) at full
width when M + 1 < height, and the single whole-canvas rectangle exactly
when neither qualifies. -/
theorem c2_region_detector (img : RawImage) (m M : Nat)
    (hm : fgRowB img m = true) (hmh : m < img.height)
    (hmin : ∀ y, y < img.height → fgRowB img y = true → m ≤ y)
    (hM : fgRowB img M = true) (hMh : M < img.height)
    (hmax : ∀ y, y < img.height → fgRowB img y = true → y ≤ M) :
    detectBand img = ((m : Int), (M : Int)) ∧
    candidates img =
      (if 0 < m then [{ x := 0, y := 0, w := (img.width : Int), h := (m : Int) }] else []) ++
      (if M + 1 < img.height then
        [{ x := 0, y := (M : Int) + 1, w := (img.width : Int),
           h := (img.height : Int) - (M : Int) - 1 }] else []) ++
      (if m = 0 ∧ M + 1 = img.height then
        [{ x := 0, y := 0, w := (img.width : Int), h := (img.height : Int) }] else []) := by
  have hdb := detectBand_of_fg img m M hm hmh hmin hM hMh hmax
  refine ⟨hdb, ?_⟩
  unfold candidates
  rw [hdb]
  by_cases h1 : 0 < m
  · have c1 : (0 : Int) < ((m : Int), (M : Int)).1 := by
      simp
      exact_mod_cast h1
    have hne : ¬ (m = 0 ∧ M + 1 = img.height) := by
      intro hcontra
      omega
    by_cases h2 : M + 1 < img.height
    · have c2 : ((m : Int), (M : Int)).2 < (img.height : Int) - 1 := by
        simp
        have : (M : Int) + 1 < (img.height : Int) := by exact_mod_cast h2
        omega
      simp [c1, c2, h1, h2, hne]
    · have c2 : ¬ (((m : Int), (M : Int)).2 < (img.height : Int) - 1) := by
        simp
        have hc : (img.height : Int) ≤ (M : Int) + 1 := by exact_mod_cast Nat.not_lt.mp h2
        omega
      simp [c1, c2, h1, h2, hne]
  · have c1 : ¬ ((0 : Int) < ((m : Int), (M : Int)).1) := by
      simp
      omega
    have hm0 : m = 0 := by omega
    by_cases h2 : M + 1 < img.height
    · have c2 : ((m : Int), (M : Int)).2 < (img.height : Int) - 1 := by
        simp
        have : (M : Int) + 1 < (img.height : Int) := by exact_mod_cast h2
        omega
      have hne : ¬ (m = 0 ∧ M + 1 = img.height) := by
        intro hcontra
        omega
      simp [c1, c2, h1, h2, hne]
    · have c2 : ¬ (((m : Int), (M : Int)).2 < (img.height : Int) - 1) := by
        simp
        have hc : (img.height : Int) ≤ (M : Int) + 1 := by exact_mod_cast Nat.not_lt.mp h2
        omega
      have heq : m = 0 ∧ M + 1 = img.height := by omega
      simp [c1, c2, h1, h2, heq]

/-- Witness for C2 on the 2 by 3 background whose only foreground row is
row 1: the scan finds (1, 1) and the candidates are the top rectangle of
row 0 and the bottom rectangle of row 2. -/
theorem c2_witness :
    detectBand imgBand = (1, 1) ∧
    candidates imgBand =
      [{ x := 0, y := 0, w := 2, h := 1 }] ++
      [{ x := 0, y := 2, w := 2, h := 1 }] ++ [] :=
  c2_region_detector imgBand 1 1 (by decide) (by decide) (by decide) (by decide)
    (by decide) (by decide)

/- ------------------------------------------------------------------ -/
/- C6: all-white backgrounds                                           -/
/- ------------------------------------------------------------------ -/

/-- Claim C6, amended: for an all-white background (every row passes the
all-channels-above-240 test) of positive height, the candidate list is
the single whole-canvas rectangle, and selection returns it for the Top
and Center preferences; for the Bottom preference the lookup for a
candidate with y != 0 finds nothing (Array.find yields undefined), so no
rectangle is selected and the later property access crashes.  The claim
as stated (whole canvas selected for every preference, Bottom included)
fails, see the counterexample. -/
theorem c6_all_white_selection (img : RawImage)
    (hall : ∀ y, y < img.height → fgRowB img y = false) (hh : 0 < img.height) :
    candidates img = [{ x := 0, y := 0, w := (img.width : Int), h := (img.height : Int) }] ∧
    selectRect "top" (candidates img) =
      some { x := 0, y := 0, w := (img.width : Int), h := (img.height : Int) } ∧
    selectRect "center" (candidates img) =
      some { x := 0, y := 0, w := (img.width : Int), h := (img.height : Int) } ∧
    selectRect "bottom" (candidates img) = none := by
  have hdb := detectBand_all_white img hall
  have hc : candidates img =
      [{ x := 0, y := 0, w := (img.width : Int), h := (img.height : Int) }] := by
    unfold candidates
    rw [hdb]
    have h2 : ((0 : Int), (-1 : Int)).2 < (img.height : Int) - 1 := by
      simp
      have : (0 : Int) < (img.height : Int) := by exact_mod_cast hh
      omega
    simp [h2]
  refine ⟨hc, ?_, ?_, ?_⟩
  · rw [hc]
    simp [selectRect, List.find?_cons]
  · rw [hc]
    simp [selectRect, sortByAreaDesc, insertByArea]
  · rw [hc]
    simp [selectRect, List.find?_cons]

/-- Claim C6, counterexample to the claim as stated: on the concrete
all-white 2 by 2 background, the Bottom preference selects nothing (the
find for a candidate with y != 0 fails), rather than the whole-canvas
rectangle. -/
theorem c6_counterexample :
    (∀ y, y < imgWhite.height → fgRowB imgWhite y = false) ∧
    selectRect "bottom" (candidates imgWhite) = none := by
  exact ⟨by decide, by decide⟩

/-- Witness for C6 on the all-white 2 by 2 background. -/
theorem c6_witness :
    candidates imgWhite = [{ x := 0, y := 0, w := 2, h := 2 }] ∧
    selectRect "top" (candidates imgWhite) = some { x := 0, y := 0, w := 2, h := 2 } ∧
    selectRect "center" (candidates imgWhite) = some { x := 0, y := 0, w := 2, h := 2 } ∧
    selectRect "bottom" (candidates imgWhite) = none :=
  c6_all_white_selection imgWhite (by decide) (by decide)

/- ------------------------------------------------------------------ -/
/- C5: selection by vertical alignment preference                      -/
/- ------------------------------------------------------------------ -/

theorem detectBand_snd_cases (img : RawImage) :
    ((detectBand img).2 = -1 ∧ (detectBand img).1 = 0) ∨ 0 ≤ (detectBand img).2 := by
  rcases foldl_max_eq_init_or_mem ((List.range img.height).filter (fgRowB img)) (-1)
    with h | ⟨z, _, h⟩
  · have hs : (scanImg img).2 = -1 := by
      rw [scanImg_eq]
      exact h
    left
    simp [detectBand, hs]
  · have hs : (scanImg img).2 = (z : Int) := by
      rw [scanImg_eq]
      exact h
    have hz0 : (0 : Int) ≤ (z : Int) := Int.ofNat_nonneg z
    have hneg : ¬ ((scanImg img).2 = -1) := by
      rw [hs]
      omega
    right
    simp [detectBand, hneg]
    rw [hs]
    exact hz0

theorem candidates_shape (img : RawImage) :
    (∃ r : Rect, candidates img = [r]) ∨
    (∃ r s : Rect, candidates img = [r, s] ∧ r.y = 0 ∧ s.y ≠ 0) := by
  by_cases h1 : 0 < (detectBand img).1
  · by_cases h2 : (detectBand img).2 < (img.height : Int) - 1
    · right
      refine ⟨{ x := 0, y := 0, w := (img.width : Int), h := (detectBand img).1 },
              { x := 0, y := (detectBand img).2 + 1, w := (img.width : Int),
                h := (img.height : Int) - (detectBand img).2 - 1 }, ?_, rfl, ?_⟩
      · simp [candidates, h1, h2]
      · rcases detectBand_snd_cases img with ⟨_, hmn0⟩ | hge
        · rw [hmn0] at h1
          exact absurd h1 (lt_irrefl 0)
        · show (detectBand img).2 + 1 ≠ 0
          omega
    · left
      exact ⟨{ x := 0, y := 0, w := (img.width : Int), h := (detectBand img).1 },
        by simp [candidates, h1, h2]⟩
  · by_cases h2 : (detectBand img).2 < (img.height : Int) - 1
    · left
      exact ⟨{ x := 0, y := (detectBand img).2 + 1, w := (img.width : Int),
               h := (img.height : Int) - (detectBand img).2 - 1 },
        by simp [candidates, h1, h2]⟩
    · left
      exact ⟨{ x := 0, y := 0, w := (img.width : Int), h := (img.height : Int) },
        by simp [candidates, h1, h2]⟩

theorem sortHead_pair (r s : Rect) :
    (sortByAreaDesc [r, s]).head? = firstLargest [r, s] := by
  by_cases h : area s ≤ area r
  · have h2 : ¬ (area r < area s) := not_lt.mpr h
    simp [sortByAreaDesc, insertByArea, firstLargest, h, h2]
  · have h2 : area r < area s := not_le.mp h
    simp [sortByAreaDesc, insertByArea, firstLargest, h, h2]

/-- Claim C5: on any candidate list the region detector produces,
selection returns for Top the candidate with y == 0, for Bottom the
candidate with y != 0, and for Center or any other preference value the
candidate of largest area with ties broken by list order (the
specification-side selector firstLargest). -/
theorem c5_selection (img : RawImage) (v : String) :
    (∀ r ∈ candidates img, r.y = 0 → selectRect "top" (candidates img) = some r) ∧
    (∀ r ∈ candidates img, r.y ≠ 0 → selectRect "bottom" (candidates img) = some r) ∧
    (v ≠ "top" → v ≠ "bottom" → selectRect v (candidates img) = firstLargest (candidates img)) := by
  rcases candidates_shape img with ⟨r0, hc⟩ | ⟨r0, s0, hc, hr0, hs0⟩
  · refine ⟨?_, ?_, ?_⟩
    · intro r hr hy
      rw [hc] at hr ⊢
      have heq : r = r0 := by simpa using hr
      subst heq
      simp [selectRect, List.find?_cons, hy]
    · intro r hr hy
      rw [hc] at hr ⊢
      have heq : r = r0 := by simpa using hr
      subst heq
      simp [selectRect, List.find?_cons, hy]
    · intro hv1 hv2
      rw [hc]
      simp [selectRect, hv1, hv2, sortByAreaDesc, insertByArea, firstLargest]
  · refine ⟨?_, ?_, ?_⟩
    · intro r hr hy
      rw [hc] at hr ⊢
      rcases (by simpa using hr : r = r0 ∨ r = s0) with rfl | rfl
      · simp [selectRect, List.find?_cons, hy]
      · exact absurd hy hs0
    · intro r hr hy
      rw [hc] at hr ⊢
      rcases (by simpa using hr : r = r0 ∨ r = s0) with rfl | rfl
      · exact absurd hr0 hy
      · simp [selectRect, List.find?_cons, hr0, hy]
    · intro hv1 hv2
      rw [hc]
      rw [show selectRect v [r0, s0] = (sortByAreaDesc [r0, s0]).head? by
        simp [selectRect, hv1, hv2]]
      exact sortHead_pair r0 s0

/-- Witness for C5 on the banded 2 by 3 background: Top picks the y = 0
candidate, Bottom the y = 2 candidate, Center the first largest one. -/
theorem c5_witness :
    selectRect "top" (candidates imgBand) = some { x := 0, y := 0, w := 2, h := 1 } ∧
    selectRect "bottom" (candidates imgBand) = some { x := 0, y := 2, w := 2, h := 1 } ∧
    selectRect "center" (candidates imgBand) = firstLargest (candidates imgBand) :=
  ⟨(c5_selection imgBand "center").1 { x := 0, y := 0, w := 2, h := 1 } (by decide) (by decide),
   (c5_selection imgBand "center").2.1 { x := 0, y := 2, w := 2, h := 1 } (by decide) (by decide),
   (c5_selection imgBand "center").2.2 (by decide) (by decide)⟩

/- ------------------------------------------------------------------ -/
/- C1: insufficient area aborts the whole batch                        -/
/- ------------------------------------------------------------------ -/

/-- Claim C1, amended: when the selected rectangle minus padding has
non-positive width or height, the item raises the insufficient-area
error; the throw is not caught anywhere in the item loop, so the whole
execution returns that error and the remaining items are not processed
(instead of the claimed per-item failure marker with continuation). -/
theorem c1_insufficient_area_aborts (β : Type) (md : β → Int × Int) (rt : β → Int → β)
    (padding : Int) (hAlign vPref : String) (tiltParam : Int)
    (bg : RawImage) (prod : β) (r : Rect)
    (hsel : selectRect vPref (candidates bg) = some r)
    (hbad : r.w - 2 * padding ≤ 0 ∨ r.h - 2 * padding ≤ 0) :
    processDetect md rt padding hAlign vPref tiltParam bg prod = .error .insufficientArea ∧
    ∀ (pre post : List (RawImage × β)),
      (∀ x ∈ pre, ∃ o, processDetect md rt padding hAlign vPref tiltParam x.1 x.2 = .ok o) →
      runBatch (fun x => processDetect md rt padding hAlign vPref tiltParam x.1 x.2)
        (pre ++ (bg, prod) :: post) = .error .insufficientArea := by
  have h1 : processDetect md rt padding hAlign vPref tiltParam bg prod =
      .error .insufficientArea := by
    simp only [processDetect, hsel]
    rw [if_pos hbad]
  refine ⟨h1, ?_⟩
  intro pre post
  induction pre with
  | nil =>
    intro _
    simp only [List.nil_append, runBatch]
    rw [h1]
  | cons x t ih =>
    intro hpre
    obtain ⟨o, ho⟩ := hpre x (List.mem_cons_self x t)
    have ht : ∀ z ∈ t, ∃ o, processDetect md rt padding hAlign vPref tiltParam z.1 z.2 = .ok o :=
      fun z hz => hpre z (List.mem_cons_of_mem x hz)
    simp only [List.cons_append, runBatch]
    rw [ho]
    simp only [List.append_eq]
    rw [ih ht]

/-- Claim C1, counterexample to the claim as stated: a two-item batch
whose first item selects the one-row top rectangle of the banded
background with padding 10 (available height 1 - 20 < 0).  The whole run
returns the batch-level error: no output list is produced at all, so the
remaining item is not processed and no per-item failure marker exists. -/
theorem c1_counterexample :
    runBatch (fun x : RawImage × Unit =>
        processDetect (fun _ : Unit => ((1 : Int), (1 : Int))) (fun b _ => b) 10 "center" "top" 0
          x.1 x.2) [(imgBand, ()), (imgBand, ())] = .error .insufficientArea := by
  rfl

/-- Witness for C1 on the banded background with padding 10. -/
theorem c1_witness :
    processDetect (fun _ : Unit => ((1 : Int), (1 : Int))) (fun b _ => b) 10 "center" "top" 0
      imgBand () = .error .insufficientArea ∧
    runBatch (fun x : RawImage × Unit =>
        processDetect (fun _ : Unit => ((1 : Int), (1 : Int))) (fun b _ => b) 10 "center" "top" 0
          x.1 x.2) [(imgBand, ()), (imgBand, ())] = .error .insufficientArea := by
  have h := c1_insufficient_area_aborts Unit (fun _ => ((1 : Int), (1 : Int))) (fun b _ => b)
    10 "center" "top" 0 imgBand () { x := 0, y := 0, w := 2, h := 1 } (by decide) (by decide)
  exact ⟨h.1, h.2 [] [(imgBand, ())] (by simp)⟩

/- ------------------------------------------------------------------ -/
/- C7: missing preferred candidate                                     -/
/- ------------------------------------------------------------------ -/

/-- Claim C7, amended: when the Top preference finds no candidate with
y == 0, or the Bottom preference finds no candidate with y != 0, the
selection yields nothing (Array.find returns undefined) and the item
fails with the unstructured TypeError of the following property access;
the error aborts the whole run.  No structured SelectionPreconditionError
exists in the code and no per-item failure marker is produced. -/
theorem c7_missing_candidate_crashes (β : Type) (md : β → Int × Int) (rt : β → Int → β)
    (padding : Int) (hAlign vPref : String) (tiltParam : Int)
    (bg : RawImage) (prod : β)
    (h : (vPref = "top" ∧ ∀ r ∈ candidates bg, ¬ (r.y = 0)) ∨
         (vPref = "bottom" ∧ ∀ r ∈ candidates bg, r.y = 0)) :
    processDetect md rt padding hAlign vPref tiltParam bg prod = .error .undefinedRect ∧
    ∀ post : List (RawImage × β),
      runBatch (fun x => processDetect md rt padding hAlign vPref tiltParam x.1 x.2)
        ((bg, prod) :: post) = .error .undefinedRect := by
  have hnone : selectRect vPref (candidates bg) = none := by
    rcases h with ⟨hv, hall⟩ | ⟨hv, hall⟩
    · subst hv
      rw [show selectRect "top" (candidates bg) = (candidates bg).find? (fun r => r.y == 0)
        from by simp [selectRect]]
      rw [List.find?_eq_none]
      intro r hr
      simpa using hall r hr
    · subst hv
      rw [show selectRect "bottom" (candidates bg) = (candidates bg).find? (fun r => r.y != 0)
        from by simp [selectRect]]
      rw [List.find?_eq_none]
      intro r hr
      simpa using hall r hr
  have h1 : processDetect md rt padding hAlign vPref tiltParam bg prod =
      .error .undefinedRect := by
    simp only [processDetect, hnone]
  refine ⟨h1, ?_⟩
  intro post
  simp only [runBatch]
  rw [h1]

/-- Claim C7, counterexample to the claim as stated: on the background
whose foreground starts at row 0 there is no candidate with y = 0, the
Top selection finds nothing, and the run returns the unstructured crash
as a batch-level error rather than a structured per-item failure. -/
theorem c7_counterexample :
    selectRect "top" (candidates imgRow0) = none ∧
    runBatch (fun x : RawImage × Unit =>
        processDetect (fun _ : Unit => ((1 : Int), (1 : Int))) (fun b _ => b) 0 "center" "top" 0
          x.1 x.2) [(imgRow0, ())] = .error .undefinedRect := by
  exact ⟨by decide, by rfl⟩

/-- Witness for C7 on the background whose foreground starts at row 0. -/
theorem c7_witness :
    processDetect (fun _ : Unit => ((1 : Int), (1 : Int))) (fun b _ => b) 0 "center" "top" 0
      imgRow0 () = .error .undefinedRect ∧
    runBatch (fun x : RawImage × Unit =>
        processDetect (fun _ : Unit => ((1 : Int), (1 : Int))) (fun b _ => b) 0 "center" "top" 0
          x.1 x.2) [(imgRow0, ())] = .error .undefinedRect := by
  have h := c7_missing_candidate_crashes Unit (fun _ => ((1 : Int), (1 : Int))) (fun b _ => b)
    0 "center" "top" 0 imgRow0 () (Or.inl ⟨rfl, by decide⟩)
  exact ⟨h.1, h.2 []⟩

/- ------------------------------------------------------------------ -/
/- C3: rotation optimizer first-max angle                              -/
/- ------------------------------------------------------------------ -/

theorem bestStep_pos {β : Type} (md : β → Int × Int) (rt : β → Int → β) (orig : β)
    (bgW bgH padding : Int) (hW : 0 < bgW - 2 * padding) (hH : 0 < bgH - 2 * padding)
    (st : Option (FitResult β)) (a : Int) :
    bestStep md rt orig bgW bgH padding st a =
      if bestArea st < areaAt md rt orig bgW bgH padding a
      then some (fitAt md rt orig bgW bgH padding a) else st := by
  unfold bestStep
  rw [if_neg (by omega : ¬ (bgW - 2 * padding ≤ 0 ∨ bgH - 2 * padding ≤ 0))]

theorem foldl_bestStep_spec {β : Type} (md : β → Int × Int) (rt : β → Int → β) (orig : β)
    (bgW bgH padding : Int) (hW : 0 < bgW - 2 * padding) (hH : 0 < bgH - 2 * padding) :
    ∀ (l : List Int) (st : Option (FitResult β)),
      (l.foldl (bestStep md rt orig bgW bgH padding) st = st ∧
        ∀ b ∈ l, areaAt md rt orig bgW bgH padding b ≤ bestArea st) ∨
      (∃ l1 a l2, l = l1 ++ a :: l2 ∧
        l.foldl (bestStep md rt orig bgW bgH padding) st =
          some (fitAt md rt orig bgW bgH padding a) ∧
        bestArea st < areaAt md rt orig bgW bgH padding a ∧
        (∀ b ∈ l1, areaAt md rt orig bgW bgH padding b < areaAt md rt orig bgW bgH padding a) ∧
        (∀ b ∈ l2, areaAt md rt orig bgW bgH padding b ≤ areaAt md rt orig bgW bgH padding a)) := by
  intro l
  induction l with
  | nil =>
    intro st
    left
    exact ⟨rfl, by simp⟩
  | cons a t ih =>
    intro st
    rw [List.foldl_cons, bestStep_pos md rt orig bgW bgH padding hW hH st a]
    by_cases hgt : bestArea st < areaAt md rt orig bgW bgH padding a
    · rw [if_pos hgt]
      have hba : bestArea (some (fitAt md rt orig bgW bgH padding a)) =
          areaAt md rt orig bgW bgH padding a := rfl
      rcases ih (some (fitAt md rt orig bgW bgH padding a)) with
        ⟨hfold, hall⟩ | ⟨l1, a2, l2, hdecomp, hfold, hlt, hl1, hl2⟩
      · right
        refine ⟨[], a, t, by simp, hfold, hgt, by simp, ?_⟩
        intro b hb
        have hb2 := hall b hb
        rw [hba] at hb2
        exact hb2
      · right
        refine ⟨a :: l1, a2, l2, by rw [hdecomp]; rfl, hfold, ?_, ?_, hl2⟩
        · rw [hba] at hlt
          omega
        · intro b hb
          rcases List.mem_cons.mp hb with rfl | hb
          · rw [hba] at hlt
            exact hlt
          · exact hl1 b hb
    · rw [if_neg hgt]
      rcases ih st with ⟨hfold, hall⟩ | ⟨l1, a2, l2, hdecomp, hfold, hlt, hl1, hl2⟩
      · left
        refine ⟨hfold, ?_⟩
        intro b hb
        rcases List.mem_cons.mp hb with rfl | hb
        · omega
        · exact hall b hb
      · right
        refine ⟨a :: l1, a2, l2, by rw [hdecomp]; rfl, hfold, hlt, ?_, hl2⟩
        intro b hb
        rcases List.mem_cons.mp hb with rfl | hb
        · omega
        · exact hl1 b hb

theorem angleList_sorted : angleList.Pairwise (· < ·) := by
  unfold angleList
  rw [List.pairwise_map]
  apply List.Pairwise.imp ?_ (List.pairwise_lt_range 37)
  intro a b hab
  omega

/-- Claim C3, amended: with positive available space and an angle a of
the grid -90, -85, ..., 90 whose scaled area is positive, maximal over
the grid, and strictly above every smaller angle of the grid (a is the
first angle attaining the maximum in the iteration order from -90
upward), findBestFitRotation returns exactly the record of a: the angle,
its rounded scaled dimensions, and its rotated-and-trimmed buffer (the
untrimmed original for angle 0, by rotatedBuf).  The claim as stated
omits the positivity proviso: when every angle scales to area 0 the
function returns the empty record instead of the first angle, see the
counterexample. -/
theorem c3_first_max_angle (β : Type) (md : β → Int × Int) (rt : β → Int → β) (orig : β)
    (bgW bgH padding : Int) (a : Int)
    (hW : 0 < bgW - 2 * padding) (hH : 0 < bgH - 2 * padding)
    (ha : a ∈ angleList) (hpos : 0 < areaAt md rt orig bgW bgH padding a)
    (hmax : ∀ b ∈ angleList,
      areaAt md rt orig bgW bgH padding b ≤ areaAt md rt orig bgW bgH padding a)
    (hfirst : ∀ b ∈ angleList, b < a →
      areaAt md rt orig bgW bgH padding b < areaAt md rt orig bgW bgH padding a) :
    findBestFitRotation md rt orig bgW bgH padding =
      some (fitAt md rt orig bgW bgH padding a) := by
  unfold findBestFitRotation
  rcases foldl_bestStep_spec md rt orig bgW bgH padding hW hH angleList none with
    ⟨_, hall⟩ | ⟨l1, a2, l2, hdecomp, hfold, hlt, hl1, hl2⟩
  · have hba := hall a ha
    have hz : bestArea (none : Option (FitResult β)) = 0 := rfl
    rw [hz] at hba
    omega
  · have ha2mem : a2 ∈ angleList := by
      rw [hdecomp]
      exact List.mem_append_right _ (List.mem_cons_self _ _)
    have hle1 := hmax a2 ha2mem
    have hsorted := angleList_sorted
    rw [hdecomp] at hsorted
    have hl2gt : ∀ b ∈ l2, a2 < b :=
      (List.pairwise_cons.mp (List.pairwise_append.mp hsorted).2.1).1
    have hamem : a ∈ l1 ∨ a = a2 ∨ a ∈ l2 := by
      rw [hdecomp] at ha
      rcases List.mem_append.mp ha with h | h
      · exact Or.inl h
      · rcases List.mem_cons.mp h with h | h
        · exact Or.inr (Or.inl h)
        · exact Or.inr (Or.inr h)
    have haa2 : a = a2 := by
      rcases hamem with h | h | h
      · have := hl1 a h
        omega
      · exact h
      · have hgt := hfirst a2 ha2mem (hl2gt a h)
        have := hl2 a h
        omega
    rw [haa2]
    exact hfold

/-- Claim C3, counterexample to the claim as stated: a product whose
footprint is 1 by 1000 at every angle, background 22 by 3, padding 1.
The available space 20 by 1 is positive, yet every angle scales to 0 by 1
(area 0), no angle ever beats the initial best area 0, and the function
returns the empty record rather than the first angle attaining the
maximum. -/
theorem c3_counterexample :
    (0 : Int) < 22 - 2 * 1 ∧ (0 : Int) < 3 - 2 * 1 ∧
    findBestFitRotation (fun _ : Unit => ((1 : Int), (1000 : Int))) (fun b _ => b) ()
      22 3 1 = none := by
  have hzero : ∀ a : Int,
      areaAt (fun _ : Unit => ((1 : Int), (1000 : Int))) (fun b _ => b) () 22 3 1 a = 0 := by
    intro a
    norm_num [areaAt, scaledAt, scaledDims, uniformScale, mathRound, min_def]
  refine ⟨by norm_num, by norm_num, ?_⟩
  unfold findBestFitRotation
  rcases foldl_bestStep_spec (fun _ : Unit => ((1 : Int), (1000 : Int))) (fun b _ => b) ()
      22 3 1 (by norm_num) (by norm_num) angleList none with
    ⟨hfold, _⟩ | ⟨_, a2, _, _, _, hlt, _, _⟩
  · exact hfold
  · rw [hzero a2] at hlt
    have hz : bestArea (none : Option (FitResult Unit)) = 0 := rfl
    rw [hz] at hlt
    exact absurd hlt (by norm_num)

/-- Witness for C3: a square 10 by 10 footprint at every angle inside a
40 by 40 background with padding 10; every angle attains the same area
400, so the first angle -90 wins. -/
theorem c3_witness :
    findBestFitRotation (fun _ : Unit => ((10 : Int), (10 : Int))) (fun b _ => b) () 40 40 10 =
      some (fitAt (fun _ : Unit => ((10 : Int), (10 : Int))) (fun b _ => b) () 40 40 10 (-90)) := by
  apply c3_first_max_angle Unit _ _ () 40 40 10 (-90) (by norm_num) (by norm_num) (by decide)
  · norm_num [areaAt, scaledAt, scaledDims, uniformScale, mathRound, min_def]
  · intro b _
    norm_num [areaAt, scaledAt, scaledDims, uniformScale, mathRound, min_def]
  · intro b hb hblt
    exfalso
    unfold angleList at hb
    obtain ⟨k, _, rfl⟩ := List.mem_map.mp hb
    omega
